import Mathlib

/-!
# Verification of the serial-plot ingestion core

Shallow embedding of `my_serial_plot.py`: the line parser, the rolling
metric store (`data_dict` with `MAX_POINTS` trimming), the export sink
(`ws`), the pause flag, and the ingestion tick (`update_plot`).

Numeric values are modelled as rationals; `parseFloat` models Python's
`float()` on the plain decimal literals the transport produces
(optional sign, digits, optional fractional part).  Raw transport lines
are modelled as `Option String`: `none` stands for a byte sequence that
fails UTF-8 decoding.
-/

namespace SerialPlot

/-- `MAX_POINTS = 100` from the source. -/
def MAX_POINTS : Nat := 100

/-- The recognized metrics: the keys of `data_dict`, fixed at startup. -/
inductive Metric where
  | current_speed
  | current_duty
  | target_speed
deriving DecidableEq, Fintype

/-- `list(data_dict.keys())` — the fixed key order of the dict literal. -/
def metricKeys : List String := ["current_speed", "current_duty", "target_speed"]

/-- The dict key order, as metrics. -/
def fixedOrder : List Metric := [.current_speed, .current_duty, .target_speed]

/-- `key in data_dict`: map a (trimmed) key string to a recognized metric. -/
def toMetric (k : List Char) : Option Metric :=
  if k = "current_speed".data then some .current_speed
  else if k = "current_duty".data then some .current_duty
  else if k = "target_speed".data then some .target_speed
  else none

/-- One spreadsheet cell: the header holds strings, data rows hold numbers. -/
inductive Cell where
  | str (s : String)
  | num (q : ℚ)
deriving DecidableEq

/-! ## Character-list utilities modelling Python string operations -/

/-- Python `str.split(c)`: split on every occurrence of `c`,
`"".split(c) = [""]`. -/
def splitOnChar (c : Char) : List Char → List (List Char)
  | [] => [[]]
  | x :: xs =>
    let r := splitOnChar c xs
    if x = c then [] :: r
    else
      match r with
      | [] => [[x]]
      | h :: t => (x :: h) :: t

/-- Python `str.strip()`: drop whitespace from both ends. -/
def trimChars (l : List Char) : List Char :=
  ((l.dropWhile Char.isWhitespace).reverse.dropWhile Char.isWhitespace).reverse

/-- Python `entry.split(':', 1)` guarded by `':' in entry`: `none` when
there is no colon, otherwise the parts before and after the first colon. -/
def splitFirstColon : List Char → Option (List Char × List Char)
  | [] => none
  | x :: xs =>
    if x = ':' then some ([], xs)
    else (splitFirstColon xs).map (fun p => (x :: p.1, p.2))

/-- Value of a string of decimal digits. -/
def digitsToNat (l : List Char) : Nat :=
  l.foldl (fun a c => 10 * a + (c.toNat - 48)) 0

/-- Unsigned part of a decimal literal: digits with at most one dot and
at least one digit overall (`"5"`, `"0.4"`, `"5."`, `".5"`). -/
def parseUnsigned (l : List Char) : Option ℚ :=
  match splitOnChar '.' l with
  | [ip] =>
    if !ip.isEmpty && ip.all Char.isDigit then some (digitsToNat ip) else none
  | [ip, fp] =>
    if (!ip.isEmpty || !fp.isEmpty) && ip.all Char.isDigit && fp.all Char.isDigit then
      some ((digitsToNat ip : ℚ) + (digitsToNat fp : ℚ) / (10 : ℚ) ^ fp.length)
    else none
  | _ => none

/-- Python `float(value)` on the decimal literals of the transport
format (§6 of the spec: decimal numbers, possibly negative, possibly
with a fractional part); `none` models the `ValueError`. -/
def parseFloat (l : List Char) : Option ℚ :=
  match l with
  | [] => none
  | c :: rest =>
    if c = '-' then (parseUnsigned rest).map Neg.neg
    else if c = '+' then parseUnsigned rest
    else parseUnsigned (c :: rest)

/-! ## The line parser -/

/-- Python dict assignment `temp_data[key] = value`: overwrite in place
when the key exists (keeping its first-insertion position), otherwise
append at the end — Python dicts preserve insertion order. -/
def dictInsert (d : List (Metric × ℚ)) (k : Metric) (v : ℚ) : List (Metric × ℚ) :=
  if d.any (fun kv => kv.1 == k) then
    d.map (fun kv => if kv.1 == k then (k, v) else kv)
  else d ++ [(k, v)]

/-- The `for entry in entries` loop.  A fragment without a colon is
skipped; a fragment whose value fails `float` raises `ValueError`,
aborting the whole line (`none`); an unrecognized key is skipped;
otherwise the pair is recorded in `temp_data`. -/
def parseEntries : List (List Char) → List (Metric × ℚ) → Option (List (Metric × ℚ))
  | [], temp => some temp
  | e :: rest, temp =>
    match splitFirstColon e with
    | none => parseEntries rest temp
    | some (k, v) =>
      match parseFloat (trimChars v) with
      | none => none
      | some q =>
        match toMetric (trimChars k) with
        | some m => parseEntries rest (dictInsert temp m q)
        | none => parseEntries rest temp

/-- A fragment that contains a colon and whose value side fails
`float` — processing it raises `ValueError`. -/
def badFragment (e : List Char) : Bool :=
  match splitFirstColon e with
  | none => false
  | some (_, v) => (parseFloat (trimChars v)).isNone

/-- A raw transport line whose processing raises inside the `try`
block: undecodable bytes (`none`) or a line with a bad fragment. -/
def badRaw : Option String → Bool
  | none => true
  | some l => ((splitOnChar ',' (trimChars l.data)).any badFragment)

/-! ## Rolling metric store and application state -/

/-- `data_dict`: one bounded value list per recognized metric. -/
structure DataDict where
  current_speed : List ℚ
  current_duty : List ℚ
  target_speed : List ℚ
deriving DecidableEq

/-- `data_dict[key]`. -/
def DataDict.get (d : DataDict) : Metric → List ℚ
  | .current_speed => d.current_speed
  | .current_duty => d.current_duty
  | .target_speed => d.target_speed

/-- Replace one metric's buffer. -/
def DataDict.set (d : DataDict) : Metric → List ℚ → DataDict
  | .current_speed, b => { d with current_speed := b }
  | .current_duty, b => { d with current_duty := b }
  | .target_speed, b => { d with target_speed := b }

/-- `data_dict[key].append(value)` followed by
`if len(data_dict[key]) > MAX_POINTS: data_dict[key].pop(0)`. -/
def record (buf : List ℚ) (v : ℚ) : List ℚ :=
  let appended := buf ++ [v]
  if MAX_POINTS < appended.length then appended.tail else appended

/-- The `for key, value in temp_data.items()` loop: record each value
into its buffer and accumulate `row_data` in the same order. -/
def applyTemp (dd : DataDict) (temp : List (Metric × ℚ)) : DataDict × List ℚ :=
  temp.foldl
    (fun acc kv => (acc.1.set kv.1 (record (acc.1.get kv.1) kv.2), acc.2 ++ [kv.2]))
    (dd, [])

/-- The whole mutable state the ingestion tick touches. -/
structure AppState where
  paused : Bool
  data_dict : DataDict
  ws : List (List Cell)
deriving DecidableEq

/-- `ws.append(list(data_dict.keys()))` at startup: the header row. -/
def headerRow : List Cell := metricKeys.map Cell.str

/-- Startup state: empty buffers, not paused, worksheet holding only the
header row. -/
def initState : AppState :=
  { paused := false
    data_dict := ⟨[], [], []⟩
    ws := [headerRow] }

/-- Processing of one raw line inside the `try` block of the ingestion
loop: decode failure or any exception leaves the state unchanged (the
`except` clauses only print); an empty line is skipped; otherwise the
parsed pairs update `data_dict` and the resulting `row_data` is appended
to the worksheet. -/
def processLine (s : AppState) (raw : Option String) : AppState :=
  match raw with
  | none => s
  | some l =>
    if trimChars l.data = [] then s
    else
      match parseEntries (splitOnChar ',' (trimChars l.data)) [] with
      | none => s
      | some temp =>
        { s with data_dict := (applyTemp s.data_dict temp).1
                 ws := s.ws ++ [(applyTemp s.data_dict temp).2.map Cell.num] }

/-- One ingestion tick `update_plot`: return immediately when paused,
otherwise drain every available raw line through `processLine`. -/
def update_plot (s : AppState) (avail : List (Option String)) : AppState :=
  if s.paused then s else avail.foldl processLine s

/-! ## Axis scaling (render adapter boundary) -/

/-- Python `<` on lists of numbers: lexicographic, a strict prefix is
smaller. -/
def pyListLtB : List ℚ → List ℚ → Bool
  | [], [] => false
  | [], _ :: _ => true
  | _ :: _, [] => false
  | a :: as, b :: bs =>
    if a < b then true else if b < a then false else pyListLtB as bs

/-- Python `min` of the three buffer lists (dict key order), first
minimum wins. -/
def pyMin3 (a b c : List ℚ) : List ℚ :=
  let m := if pyListLtB b a then b else a
  if pyListLtB c m then c else m

/-- Python `max` of the three buffer lists (dict key order), first
maximum wins. -/
def pyMax3 (a b c : List ℚ) : List ℚ :=
  let m := if pyListLtB a b then b else a
  if pyListLtB m c then c else m

/-- Python `min(l, default=d)`. -/
def listMinD : List ℚ → ℚ → ℚ
  | [], d => d
  | x :: xs, _ => xs.foldl (fun a b => if b < a then b else a) x

/-- Python `max(l, default=d)`. -/
def listMaxD : List ℚ → ℚ → ℚ
  | [], d => d
  | x :: xs, _ => xs.foldl (fun a b => if a < b then b else a) x

/-- `y_min = min(min(data_dict[key] for key in data_dict), default=0) - 10`
exactly as the source computes it: the inner `min` compares the three
buffer *lists* lexicographically and returns one list; the outer `min`
takes that list's smallest element (0 when it is empty). -/
def y_min_code (dd : DataDict) : ℚ :=
  listMinD (pyMin3 dd.current_speed dd.current_duty dd.target_speed) 0 - 10

/-- `y_max = max(max(data_dict[key] for key in data_dict), default=0) + 10`
exactly as the source computes it. -/
def y_max_code (dd : DataDict) : ℚ :=
  listMaxD (pyMax3 dd.current_speed dd.current_duty dd.target_speed) 0 + 10

/-- The y-limits after the per-line update loop: `set_ylim(y_min, y_max)`
runs whenever some buffer is non-empty, otherwise the previous limits
remain. -/
def ylim_after (prev : Option (ℚ × ℚ)) (dd : DataDict) : Option (ℚ × ℚ) :=
  if dd.current_speed ≠ [] ∨ dd.current_duty ≠ [] ∨ dd.target_speed ≠ [] then
    some (y_min_code dd, y_max_code dd)
  else prev

/-- Modelled from the spec: "the current global value range across all
recognized metrics' buffers" — every stored value of every buffer. -/
def allValues (dd : DataDict) : List ℚ :=
  dd.current_speed ++ dd.current_duty ++ dd.target_speed

/-- Modelled from the spec: the global minimum across all buffers with
the fixed margin of 10 below. -/
def y_min_spec (dd : DataDict) : ℚ := listMinD (allValues dd) 0 - 10

/-- Modelled from the spec: the export row rebuilt "in the fixed metric
ordering" — the values of the metrics present on the line, arranged in
the configured `fixedOrder`. -/
def specFixedOrderRow (temp : List (Metric × ℚ)) : List Cell :=
  (fixedOrder.filterMap (fun m => (temp.find? (fun kv => kv.1 == m)).map Prod.snd)).map
    Cell.num

/-- Modelled from the spec/§9 clarification: the recognized metrics of a
line in order of first encounter, used to compare against the dict
insertion order the code produces. -/
def encounterKeys : List (List Char) → List Metric → List Metric
  | [], acc => acc
  | e :: rest, acc =>
    match splitFirstColon e with
    | none => encounterKeys rest acc
    | some (k, _) =>
      match toMetric (trimChars k) with
      | some m => encounterKeys rest (if m ∈ acc then acc else acc ++ [m])
      | none => encounterKeys rest acc

/-! ## General lemmas about the embedding -/

theorem parseEntries_cons (e : List Char) (rest : List (List Char))
    (temp : List (Metric × ℚ)) :
    parseEntries (e :: rest) temp =
      match splitFirstColon e with
      | none => parseEntries rest temp
      | some (k, v) =>
        match parseFloat (trimChars v) with
        | none => none
        | some q =>
          match toMetric (trimChars k) with
          | some m => parseEntries rest (dictInsert temp m q)
          | none => parseEntries rest temp := rfl

theorem parseEntries_none_of_any_bad :
    ∀ (es : List (List Char)) (temp : List (Metric × ℚ)),
      es.any badFragment = true → parseEntries es temp = none := by
  intro es
  induction es with
  | nil => intro temp h; simp at h
  | cons e rest ih =>
    intro temp h
    simp only [List.any_cons, Bool.or_eq_true] at h
    rw [parseEntries_cons]
    rcases hsp : splitFirstColon e with _ | ⟨k, v⟩
    · simp only [hsp]
      have hb : badFragment e = false := by simp [badFragment, hsp]
      rcases h with h | h
      · rw [hb] at h; cases h
      · exact ih temp h
    · simp only [hsp]
      rcases hp : parseFloat (trimChars v) with _ | q
      · simp only [hp]
      · simp only [hp]
        have hb : badFragment e = false := by
          simp [badFragment, hsp, hp]
        rcases h with h | h
        · rw [hb] at h; cases h
        · rcases hm : toMetric (trimChars k) with _ | m
          · simp only [hm]
            exact ih temp h
          · simp only [hm]
            exact ih (dictInsert temp m q) h

theorem foldl_applyTemp_snd (temp : List (Metric × ℚ)) :
    ∀ acc : DataDict × List ℚ,
      (temp.foldl
          (fun acc kv => (acc.1.set kv.1 (record (acc.1.get kv.1) kv.2), acc.2 ++ [kv.2]))
          acc).2
        = acc.2 ++ temp.map Prod.snd := by
  induction temp with
  | nil => intro acc; simp
  | cons kv rest ih =>
    intro acc
    rw [List.foldl_cons, ih]
    simp

theorem applyTemp_snd (dd : DataDict) (temp : List (Metric × ℚ)) :
    (applyTemp dd temp).2 = temp.map Prod.snd := by
  unfold applyTemp
  rw [foldl_applyTemp_snd]
  simp

theorem processLine_empty (s : AppState) (l : String) (h : trimChars l.data = []) :
    processLine s (some l) = s := by
  simp only [processLine]
  rw [if_pos h]

theorem processLine_parse_fail (s : AppState) (l : String)
    (h : parseEntries (splitOnChar ',' (trimChars l.data)) [] = none) :
    processLine s (some l) = s := by
  simp only [processLine]
  by_cases h1 : trimChars l.data = []
  · rw [if_pos h1]
  · rw [if_neg h1]
    simp only [h]

theorem processLine_parse_ok (s : AppState) (l : String) (temp : List (Metric × ℚ))
    (h1 : trimChars l.data ≠ [])
    (h2 : parseEntries (splitOnChar ',' (trimChars l.data)) [] = some temp) :
    processLine s (some l) =
      { s with data_dict := (applyTemp s.data_dict temp).1
               ws := s.ws ++ [(temp.map Prod.snd).map Cell.num] } := by
  simp only [processLine]
  rw [if_neg h1]
  simp only [h2, applyTemp_snd]

theorem processLine_badRaw (s : AppState) (raw : Option String) (h : badRaw raw = true) :
    processLine s raw = s := by
  cases raw with
  | none => rfl
  | some l =>
    simp only [badRaw] at h
    by_cases h1 : trimChars l.data = []
    · exact processLine_empty s l h1
    · exact processLine_parse_fail s l (parseEntries_none_of_any_bad _ _ h)

theorem processLine_ws_extend (s : AppState) (raw : Option String) :
    ∃ t, (processLine s raw).ws = s.ws ++ t := by
  cases raw with
  | none => exact ⟨[], by simp [processLine]⟩
  | some l =>
    by_cases h1 : trimChars l.data = []
    · exact ⟨[], by rw [processLine_empty s l h1]; simp⟩
    · cases h2 : parseEntries (splitOnChar ',' (trimChars l.data)) [] with
      | none => exact ⟨[], by rw [processLine_parse_fail s l h2]; simp⟩
      | some temp =>
        exact ⟨[(temp.map Prod.snd).map Cell.num], by rw [processLine_parse_ok s l temp h1 h2]⟩

theorem foldl_processLine_ws_extend (avail : List (Option String)) :
    ∀ s : AppState, ∃ t, (avail.foldl processLine s).ws = s.ws ++ t := by
  induction avail with
  | nil => intro s; exact ⟨[], by simp⟩
  | cons r rest ih =>
    intro s
    obtain ⟨t1, h1⟩ := processLine_ws_extend s r
    obtain ⟨t2, h2⟩ := ih (processLine s r)
    exact ⟨t1 ++ t2, by rw [List.foldl_cons, h2, h1, List.append_assoc]⟩

theorem update_plot_ws_extend (s : AppState) (avail : List (Option String)) :
    ∃ t, (update_plot s avail).ws = s.ws ++ t := by
  unfold update_plot
  by_cases h : s.paused
  · exact ⟨[], by rw [if_pos h]; simp⟩
  · rw [if_neg h]
    exact foldl_processLine_ws_extend avail s

theorem ticks_ws_extend (ticks : List (List (Option String))) :
    ∀ s : AppState, ∃ t, (ticks.foldl update_plot s).ws = s.ws ++ t := by
  induction ticks with
  | nil => intro s; exact ⟨[], by simp⟩
  | cons a rest ih =>
    intro s
    obtain ⟨t1, h1⟩ := update_plot_ws_extend s a
    obtain ⟨t2, h2⟩ := ih (update_plot s a)
    exact ⟨t1 ++ t2, by rw [List.foldl_cons, h2, h1, List.append_assoc]⟩

theorem record_eq_of_lt (buf : List ℚ) (v : ℚ) (h : buf.length < MAX_POINTS) :
    record buf v = buf ++ [v] := by
  unfold record
  rw [if_neg]
  simp only [List.length_append, List.length_cons, List.length_nil]
  omega

theorem record_eq_of_eq (buf : List ℚ) (v : ℚ) (h : buf.length = MAX_POINTS) :
    record buf v = (buf ++ [v]).tail := by
  unfold record
  rw [if_pos]
  simp only [List.length_append, List.length_cons, List.length_nil]
  omega

theorem foldl_record_eq :
    ∀ (vs : List ℚ) (buf : List ℚ), buf.length ≤ MAX_POINTS →
      vs.foldl record buf = (buf ++ vs).drop (buf.length + vs.length - MAX_POINTS) := by
  intro vs
  induction vs with
  | nil =>
    intro buf h
    have h0 : buf.length + ([] : List ℚ).length - MAX_POINTS = 0 := by
      simp only [List.length_nil]
      omega
    rw [List.foldl_nil, h0, List.append_nil, List.drop_zero]
  | cons v vs ih =>
    intro buf h
    rw [List.foldl_cons]
    by_cases hfull : buf.length = MAX_POINTS
    · rw [record_eq_of_eq buf v hfull]
      have hlen : ((buf ++ [v]).tail).length = MAX_POINTS := by
        simp only [List.length_tail, List.length_append, List.length_cons, List.length_nil]
        omega
      rw [ih _ (le_of_eq hlen), hlen]
      have hbuf : buf ≠ [] := by
        intro hnil
        rw [hnil] at hfull
        simp [MAX_POINTS] at hfull
      have h1 : (buf ++ [v]).tail ++ vs = (buf ++ v :: vs).tail := by
        cases buf with
        | nil => exact absurd rfl hbuf
        | cons a as => simp
      rw [h1, List.drop_tail]
      congr 1
      simp only [List.length_cons]
      omega
    · have hlt : buf.length < MAX_POINTS := lt_of_le_of_ne h hfull
      rw [record_eq_of_lt buf v hlt]
      have hlen : (buf ++ [v]).length ≤ MAX_POINTS := by
        simp only [List.length_append, List.length_cons, List.length_nil]
        omega
      rw [ih _ hlen, List.append_assoc, List.singleton_append]
      congr 1
      simp only [List.length_append, List.length_cons, List.length_nil]
      omega

theorem dictInsert_any_iff (d : List (Metric × ℚ)) (k : Metric) :
    d.any (fun kv => kv.1 == k) = true ↔ k ∈ d.map Prod.fst := by
  rw [List.any_eq_true]
  constructor
  · rintro ⟨kv, hmem, hkv⟩
    rw [beq_iff_eq] at hkv
    exact List.mem_map.mpr ⟨kv, hmem, hkv⟩
  · rintro hk
    obtain ⟨kv, hmem, hkv⟩ := List.mem_map.mp hk
    exact ⟨kv, hmem, by rw [beq_iff_eq]; exact hkv⟩

theorem dictInsert_map_fst (d : List (Metric × ℚ)) (k : Metric) (v : ℚ) :
    (dictInsert d k v).map Prod.fst =
      if k ∈ d.map Prod.fst then d.map Prod.fst else d.map Prod.fst ++ [k] := by
  unfold dictInsert
  by_cases h : d.any (fun kv => kv.1 == k) = true
  · rw [if_pos h, if_pos ((dictInsert_any_iff d k).mp h), List.map_map]
    apply List.map_congr_left
    intro kv _
    by_cases hk : kv.1 = k
    · simp [Function.comp, hk]
    · simp [Function.comp, hk]
  · rw [if_neg h, if_neg (fun hc => h ((dictInsert_any_iff d k).mpr hc))]
    simp

theorem dictInsert_nodup (d : List (Metric × ℚ)) (k : Metric) (v : ℚ)
    (h : (d.map Prod.fst).Nodup) : ((dictInsert d k v).map Prod.fst).Nodup := by
  rw [dictInsert_map_fst]
  by_cases hk : k ∈ d.map Prod.fst
  · rwa [if_pos hk]
  · rw [if_neg hk]
    rw [List.nodup_append]
    exact ⟨h, List.nodup_singleton k, by simpa using hk⟩

theorem parseEntries_nodup :
    ∀ (es : List (List Char)) (temp res : List (Metric × ℚ)),
      (temp.map Prod.fst).Nodup → parseEntries es temp = some res →
      (res.map Prod.fst).Nodup := by
  intro es
  induction es with
  | nil =>
    intro temp res hn h
    rw [parseEntries] at h
    cases h
    exact hn
  | cons e rest ih =>
    intro temp res hn h
    rw [parseEntries_cons] at h
    rcases hsp : splitFirstColon e with _ | ⟨k, v⟩
    · simp only [hsp] at h
      exact ih temp res hn h
    · simp only [hsp] at h
      rcases hp : parseFloat (trimChars v) with _ | q
      · simp only [hp] at h
        cases h
      · simp only [hp] at h
        rcases hm : toMetric (trimChars k) with _ | m
        · simp only [hm] at h
          exact ih temp res hn h
        · simp only [hm] at h
          exact ih (dictInsert temp m q) res (dictInsert_nodup temp m q hn) h

theorem parseEntries_map_fst :
    ∀ (es : List (List Char)) (temp res : List (Metric × ℚ)),
      parseEntries es temp = some res →
      res.map Prod.fst = encounterKeys es (temp.map Prod.fst) := by
  intro es
  induction es with
  | nil =>
    intro temp res h
    rw [parseEntries] at h
    cases h
    rfl
  | cons e rest ih =>
    intro temp res h
    rw [parseEntries_cons] at h
    rw [encounterKeys]
    rcases hsp : splitFirstColon e with _ | ⟨k, v⟩
    · simp only [hsp] at h ⊢
      exact ih temp res h
    · simp only [hsp] at h ⊢
      rcases hp : parseFloat (trimChars v) with _ | q
      · simp only [hp] at h
        cases h
      · simp only [hp] at h
        rcases hm : toMetric (trimChars k) with _ | m
        · simp only [hm] at h ⊢
          exact ih temp res h
        · simp only [hm] at h ⊢
          rw [ih (dictInsert temp m q) res h, dictInsert_map_fst]

theorem metric_card : Fintype.card Metric = 3 := rfl

theorem temp_length_le_three (l : String) (temp : List (Metric × ℚ))
    (h : parseEntries (splitOnChar ',' (trimChars l.data)) [] = some temp) :
    temp.length ≤ 3 := by
  have hn : (temp.map Prod.fst).Nodup :=
    parseEntries_nodup _ [] temp (by simp) h
  have hc := hn.length_le_card
  rw [List.length_map, metric_card] at hc
  exact hc

/-- Buffer contents reached by the two concrete lines used for the axis
scaling analysis. -/
def axisExample : DataDict := ⟨[5, -100], [2], [3]⟩

/-! ## Claims -/

/-- C1, counterexample: parsing the line
`"current_speed:abc,target_speed:5"` does not yield one applied pair —
the `ValueError` raised by `float("abc")` aborts the whole line, so the
parse yields `none` and the state (in particular the `target_speed`
buffer and the worksheet) is unchanged. -/
theorem c1_counterexample :
    parseEntries (splitOnChar ',' (trimChars ("current_speed:abc,target_speed:5").data)) []
      = none ∧
    processLine initState (some "current_speed:abc,target_speed:5") = initState ∧
    (processLine initState (some "current_speed:abc,target_speed:5")).data_dict.target_speed
      = [] := by
  refine ⟨by decide, by decide, by decide⟩

/-- C1, amended: when the value side of any fragment of a line fails to
parse as a float, the entire line is discarded — the parse yields no
pairs and no fragment of the line is applied to the state. -/
theorem c1_whole_line_discarded (s : AppState) (l : String)
    (h : ((splitOnChar ',' (trimChars l.data)).any badFragment) = true) :
    parseEntries (splitOnChar ',' (trimChars l.data)) [] = none ∧
    processLine s (some l) = s :=
  ⟨parseEntries_none_of_any_bad _ [] h,
   processLine_badRaw s (some l) (by simp only [badRaw]; exact h)⟩

/-- Witness for `c1_whole_line_discarded` at the line
`"current_duty:xyz,target_speed:4"`. -/
theorem c1_whole_line_discarded_witness :
    ((splitOnChar ',' (trimChars ("current_duty:xyz,target_speed:4").data)).any badFragment)
      = true ∧
    (parseEntries (splitOnChar ',' (trimChars ("current_duty:xyz,target_speed:4").data)) []
        = none ∧
      processLine initState (some "current_duty:xyz,target_speed:4") = initState) :=
  ⟨by decide, c1_whole_line_discarded initState "current_duty:xyz,target_speed:4" (by decide)⟩

/-- C2: after folding any sequence of accepted values into an empty
buffer via `record` (append + pop-front beyond `MAX_POINTS`), the buffer
holds exactly `min N MAX_POINTS` entries, equal to the most recent
values in arrival order, and at capacity each insertion evicts the
oldest element. -/
theorem c2_fifo_window (vs : List ℚ) :
    (vs.foldl record []).length = min vs.length MAX_POINTS ∧
    vs.foldl record [] = vs.drop (vs.length - MAX_POINTS) ∧
    ∀ (buf : List ℚ) (v : ℚ), buf.length = MAX_POINTS → record buf v = buf.tail ++ [v] := by
  have hbase := foldl_record_eq vs [] (by simp)
  refine ⟨?_, ?_, ?_⟩
  · rw [hbase, List.length_drop]
    simp only [List.nil_append, List.length_nil, Nat.zero_add]
    omega
  · rw [hbase]
    simp
  · intro buf v h
    rw [record_eq_of_eq buf v h]
    cases buf with
    | nil => simp [MAX_POINTS] at h
    | cons a as => simp

/-- Witness for `c2_fifo_window`: a buffer at capacity evicts its
oldest element. -/
theorem c2_fifo_window_witness :
    (List.replicate 100 (0 : ℚ)).length = MAX_POINTS ∧
    record (List.replicate 100 (0 : ℚ)) 1 = (List.replicate 100 (0 : ℚ)).tail ++ [1] :=
  ⟨by decide, (c2_fifo_window []).2.2 (List.replicate 100 (0 : ℚ)) 1 (by decide)⟩

/-- C3, counterexample: the line `"target_speed:5"` appends a row of
width 1, not width 3 = number of recognized metrics. -/
theorem c3_counterexample :
    (processLine initState (some "target_speed:5")).ws = [headerRow, [Cell.num 5]] ∧
    ([Cell.num 5] : List Cell).length ≠ metricKeys.length := by
  refine ⟨by decide, by decide⟩

/-- C3, amended: the appended export row has width equal to the number
of distinct recognized metrics present on that line — at most three,
but not constant. -/
theorem c3_row_width (s : AppState) (l : String) (temp : List (Metric × ℚ))
    (h1 : trimChars l.data ≠ [])
    (h2 : parseEntries (splitOnChar ',' (trimChars l.data)) [] = some temp) :
    (processLine s (some l)).ws = s.ws ++ [(temp.map Prod.snd).map Cell.num] ∧
    ((temp.map Prod.snd).map Cell.num).length = temp.length ∧
    temp.length ≤ 3 := by
  refine ⟨?_, by simp, temp_length_le_three l temp h2⟩
  rw [processLine_parse_ok s l temp h1 h2]

/-- Witness for `c3_row_width` at the line `"target_speed:5"`. -/
theorem c3_row_width_witness :
    trimChars ("target_speed:5").data ≠ [] ∧
    parseEntries (splitOnChar ',' (trimChars ("target_speed:5").data)) []
      = some [(Metric.target_speed, 5)] ∧
    ((processLine initState (some "target_speed:5")).ws =
        initState.ws ++ [(([(Metric.target_speed, (5 : ℚ))].map Prod.snd).map Cell.num)] ∧
      (([(Metric.target_speed, (5 : ℚ))].map Prod.snd).map Cell.num).length =
        [(Metric.target_speed, (5 : ℚ))].length ∧
      [(Metric.target_speed, (5 : ℚ))].length ≤ 3) :=
  ⟨by decide, by decide,
   c3_row_width initState "target_speed:5" [(Metric.target_speed, 5)] (by decide) (by decide)⟩

/-- C4, counterexample: for the line `"target_speed:1,current_speed:2"`
the appended row is `[1, 2]` (encounter order), while the fixed
configured metric ordering would give `[2, 1]`. -/
theorem c4_counterexample :
    parseEntries (splitOnChar ',' (trimChars ("target_speed:1,current_speed:2").data)) []
      = some [(Metric.target_speed, 1), (Metric.current_speed, 2)] ∧
    (processLine initState (some "target_speed:1,current_speed:2")).ws =
      [headerRow, [Cell.num 1, Cell.num 2]] ∧
    specFixedOrderRow [(Metric.target_speed, 1), (Metric.current_speed, 2)] =
      [Cell.num 2, Cell.num 1] ∧
    ([Cell.num 1, Cell.num 2] : List Cell) ≠ [Cell.num 2, Cell.num 1] := by
  refine ⟨by decide, by decide, by decide, by decide⟩

/-- C4, amended: the export row carries the values in dict insertion
order, i.e. the order in which the recognized metrics are first
encountered on the line, not the fixed configured ordering. -/
theorem c4_encounter_order (s : AppState) (l : String) (temp : List (Metric × ℚ))
    (h1 : trimChars l.data ≠ [])
    (h2 : parseEntries (splitOnChar ',' (trimChars l.data)) [] = some temp) :
    (processLine s (some l)).ws = s.ws ++ [(temp.map Prod.snd).map Cell.num] ∧
    temp.map Prod.fst = encounterKeys (splitOnChar ',' (trimChars l.data)) [] := by
  refine ⟨?_, ?_⟩
  · rw [processLine_parse_ok s l temp h1 h2]
  · exact parseEntries_map_fst _ [] temp h2

/-- Witness for `c4_encounter_order` at `"current_duty:7,target_speed:8"`. -/
theorem c4_encounter_order_witness :
    trimChars ("current_duty:7,target_speed:8").data ≠ [] ∧
    parseEntries (splitOnChar ',' (trimChars ("current_duty:7,target_speed:8").data)) []
      = some [(Metric.current_duty, 7), (Metric.target_speed, 8)] ∧
    ((processLine initState (some "current_duty:7,target_speed:8")).ws =
        initState.ws ++
          [(([(Metric.current_duty, (7 : ℚ)), (Metric.target_speed, 8)].map Prod.snd).map
              Cell.num)] ∧
      [(Metric.current_duty, (7 : ℚ)), (Metric.target_speed, 8)].map Prod.fst =
        encounterKeys (splitOnChar ',' (trimChars ("current_duty:7,target_speed:8").data)) []) :=
  ⟨by decide, by decide,
   c4_encounter_order initState "current_duty:7,target_speed:8"
     [(Metric.current_duty, 7), (Metric.target_speed, 8)] (by decide) (by decide)⟩

/-- C5: while the pause flag is set, a tick leaves the whole state —
metric buffers and worksheet included — unchanged, whatever raw data is
available on the transport. -/
theorem c5_paused_noop (s : AppState) (avail : List (Option String)) (h : s.paused = true) :
    update_plot s avail = s := by
  simp [update_plot, h]

/-- Witness for `c5_paused_noop`: a paused state with data available. -/
theorem c5_paused_noop_witness :
    ({ initState with paused := true } : AppState).paused = true ∧
    update_plot { initState with paused := true } [some "target_speed:5"]
      = { initState with paused := true } :=
  ⟨rfl, c5_paused_noop { initState with paused := true } [some "target_speed:5"] rfl⟩

/-- C6: the code does not compute the global minimum.  After the two
lines `"current_speed:5,current_duty:2,target_speed:3"` and
`"current_speed:-100"`, the buffers are `([5,-100], [2], [3])`; the
y-axis lower bound the code passes to `set_ylim` is `2 - 10` (the
minimum of the lexicographically smallest buffer `[2]`, minus the
margin), while the global minimum over all buffers minus the margin
would be `-100 - 10`. -/
theorem c6_axis_divergence :
    (update_plot initState
        [some "current_speed:5,current_duty:2,target_speed:3",
         some "current_speed:-100"]).data_dict = axisExample ∧
    y_min_code axisExample = 2 - 10 ∧
    y_min_spec axisExample = -100 - 10 ∧
    y_min_code axisExample ≠ y_min_spec axisExample ∧
    ylim_after none axisExample = some (y_min_code axisExample, y_max_code axisExample) := by
  have hmin :
      listMinD
        (pyMin3 axisExample.current_speed axisExample.current_duty axisExample.target_speed)
        0 = 2 := by decide
  have hall : listMinD (allValues axisExample) 0 = -100 := by decide
  refine ⟨by decide, ?_, ?_, ?_, ?_⟩
  · unfold y_min_code
    rw [hmin]
  · unfold y_min_spec
    rw [hall]
  · unfold y_min_code y_min_spec
    rw [hmin, hall]
    norm_num
  · simp [ylim_after, axisExample]

/-- C7: a malformed unit — an undecodable raw line or a line whose
processing raises a parse error — is skipped without affecting the rest
of the drain: the tick over any surrounding lines equals the tick with
the bad line removed, so no exception escapes and already-processed
lines keep their effects. -/
theorem c7_no_propagation (s : AppState) (pre suf : List (Option String))
    (raw : Option String) (h : badRaw raw = true) :
    update_plot s (pre ++ raw :: suf) = update_plot s (pre ++ suf) := by
  unfold update_plot
  by_cases hp : s.paused = true
  · rw [if_pos hp, if_pos hp]
  · rw [if_neg hp, if_neg hp, List.foldl_append, List.foldl_append, List.foldl_cons,
      processLine_badRaw _ raw h]

/-- Witness for `c7_no_propagation`: a bad line between two good ones. -/
theorem c7_no_propagation_witness :
    badRaw (some "current_speed:abc") = true ∧
    update_plot initState
        ([some "target_speed:7"] ++ (some "current_speed:abc") :: [some "target_speed:8"])
      = update_plot initState ([some "target_speed:7"] ++ [some "target_speed:8"]) :=
  ⟨by decide,
   c7_no_propagation initState [some "target_speed:7"] [some "target_speed:8"]
     (some "current_speed:abc") (by decide)⟩

/-- C8: the worksheet starts as exactly the header row — the recognized
metric names in their fixed configured order — and after any sequence
of ticks the header is still the first row, before all data rows. -/
theorem c8_header_first (ticks : List (List (Option String))) :
    initState.ws = [headerRow] ∧
    headerRow = metricKeys.map Cell.str ∧
    (ticks.foldl update_plot initState).ws.head? = some headerRow := by
  refine ⟨rfl, rfl, ?_⟩
  obtain ⟨t, ht⟩ := ticks_ws_extend ticks initState
  rw [ht]
  rfl

/-- C9, counterexample: the decoded non-empty line `"foo:abc"` yields
zero recognized pairs, yet no empty row is appended — the float failure
aborts the line before `ws.append` runs, leaving the worksheet with
only the header. -/
theorem c9_counterexample :
    trimChars ("foo:abc").data ≠ [] ∧
    parseEntries (splitOnChar ',' (trimChars ("foo:abc").data)) [] = none ∧
    (processLine initState (some "foo:abc")).ws = [headerRow] ∧
    (processLine initState (some "foo:abc")).ws ≠ [headerRow, []] := by
  refine ⟨by decide, by decide, by decide, by decide⟩

/-- C9, amended: a decoded non-empty line whose parsing completes
without a value-parse failure but yields zero recognized pairs (for
example only unrecognized keys with parsable values, or fragments
without a separator) appends one empty row to the worksheet and leaves
every buffer unchanged. -/
theorem c9_empty_row (s : AppState) (l : String)
    (h1 : trimChars l.data ≠ [])
    (h2 : parseEntries (splitOnChar ',' (trimChars l.data)) [] = some []) :
    (processLine s (some l)).ws = s.ws ++ [[]] ∧
    (processLine s (some l)).data_dict = s.data_dict := by
  rw [processLine_parse_ok s l [] h1 h2]
  exact ⟨rfl, rfl⟩

/-- Witness for `c9_empty_row` at the unrecognized-key line `"foo:1"`. -/
theorem c9_empty_row_witness :
    trimChars ("foo:1").data ≠ [] ∧
    parseEntries (splitOnChar ',' (trimChars ("foo:1").data)) [] = some [] ∧
    ((processLine initState (some "foo:1")).ws = initState.ws ++ [[]] ∧
      (processLine initState (some "foo:1")).data_dict = initState.data_dict) :=
  ⟨by decide, by decide, c9_empty_row initState "foo:1" (by decide) (by decide)⟩

/-- C10: line processing is all-or-nothing on parse failure — when any
fragment of a line has a value that fails float parsing, no metric
buffer is updated and nothing is appended to the worksheet by that
line. -/
theorem c10_all_or_nothing (s : AppState) (l : String)
    (h : ((splitOnChar ',' (trimChars l.data)).any badFragment) = true) :
    (processLine s (some l)).data_dict = s.data_dict ∧
    (processLine s (some l)).ws = s.ws := by
  have hs : processLine s (some l) = s :=
    processLine_badRaw s (some l) (by simp only [badRaw]; exact h)
  rw [hs]
  exact ⟨rfl, rfl⟩

/-- Witness for `c10_all_or_nothing`: the line
`"current_speed:1,current_duty:abc,target_speed:5"` has a well-formed
first fragment, yet neither buffers nor worksheet change. -/
theorem c10_all_or_nothing_witness :
    ((splitOnChar ',' (trimChars ("current_speed:1,current_duty:abc,target_speed:5").data)).any
        badFragment) = true ∧
    ((processLine initState
          (some "current_speed:1,current_duty:abc,target_speed:5")).data_dict =
        initState.data_dict ∧
      (processLine initState (some "current_speed:1,current_duty:abc,target_speed:5")).ws =
        initState.ws) :=
  ⟨by decide,
   c10_all_or_nothing initState "current_speed:1,current_duty:abc,target_speed:5" (by decide)⟩

end SerialPlot
